import Mathlib

/-!
Shallow embedding of the core logic of `multi_drag.cpp` (the "multiple
draggable objects" SDL2 demo): the `DraggableObject` class, the
`ObjectManager` class, and the event dispatch of `SDLApp::handleEvents`
restricted to the mouse events that mutate the object registry.

Machine `int` coordinates are modelled as `Int` (overflow is undefined
behaviour in the source, so unbounded integers are faithful on defined
executions).  The `std::mt19937`/`uniform_int_distribution<int>(0,255)`
random source is modelled as an explicit stream `Nat → Fin 256` of the
successive outputs of `colorDist(rng)`; `ObjectManager` carries the
position of the next unconsumed output.
-/

namespace MultiDrag

/-- `SDLApp::WINDOW_WIDTH`. -/
def WINDOW_WIDTH : Int := 800

/-- `SDLApp::WINDOW_HEIGHT`. -/
def WINDOW_HEIGHT : Int := 600

/-- `SDL_BUTTON_LEFT` (the primary mouse button) is button number 1 in SDL2. -/
def SDL_BUTTON_LEFT : Nat := 1

/-- `SDL_Color`: four byte-valued channels; we keep them as `Nat` values,
the generator only ever produces values in `[0, 255]`. -/
structure SDLColor where
  r : Nat
  g : Nat
  b : Nat
  a : Nat
deriving Repr, DecidableEq

/-- `SDL_Rect`: integer position and extent. -/
structure SDLRect where
  x : Int
  y : Int
  w : Int
  h : Int
deriving Repr, DecidableEq

/-- `SDLApp::DraggableObject`: rectangle, colour, and per-object drag state. -/
structure DraggableObject where
  rect : SDLRect
  color : SDLColor
  isDragging : Bool
  dragOffsetX : Int
  dragOffsetY : Int
deriving Repr, DecidableEq

/-- `std::clamp(v, lo, hi)` on `int` (precondition `lo ≤ hi` holds at every
call site in the source). -/
def STDclamp (v lo hi : Int) : Int :=
  if v < lo then lo else if hi < v then hi else v

/-- The `DraggableObject(x, y, w, h, c)` constructor: `isDragging = false`,
both drag offsets `0`. -/
def mkDraggableObject (x y w h : Int) (c : SDLColor) : DraggableObject :=
  { rect := { x := x, y := y, w := w, h := h }, color := c,
    isDragging := false, dragOffsetX := 0, dragOffsetY := 0 }

/-- `DraggableObject::containsPoint`: half-open point-in-rectangle test
`x ∈ [rect.x, rect.x + rect.w) ∧ y ∈ [rect.y, rect.y + rect.h)`. -/
def containsPoint (o : DraggableObject) (px py : Int) : Bool :=
  decide (px ≥ o.rect.x) && decide (px < o.rect.x + o.rect.w) &&
  decide (py ≥ o.rect.y) && decide (py < o.rect.y + o.rect.h)

/-- `DraggableObject::drag(mouseX, mouseY)`: when dragging, move to the mouse
position minus the stored grab offset, then clamp each coordinate into the
window; otherwise do nothing. -/
def drag (o : DraggableObject) (mouseX mouseY : Int) : DraggableObject :=
  if o.isDragging then
    { o with rect := { o.rect with
        x := STDclamp (mouseX - o.dragOffsetX) 0 (WINDOW_WIDTH - o.rect.w),
        y := STDclamp (mouseY - o.dragOffsetY) 0 (WINDOW_HEIGHT - o.rect.h) } }
  else o

/-- `SDLApp::ObjectManager`: the ordered object registry plus the position of
the next unconsumed random-stream output (the `mt19937` state). -/
structure ObjectManager where
  objects : List DraggableObject
  rngPos : Nat
deriving Repr, DecidableEq

/-- `ObjectManager::generateRandomColor()` reading three successive outputs of
`colorDist(rng)` from the stream starting at `pos`: random `r`, `g`, `b` and
alpha fixed at `255`. -/
def generateRandomColor (stream : Nat → Fin 256) (pos : Nat) : SDLColor :=
  { r := (stream pos).val, g := (stream (pos + 1)).val,
    b := (stream (pos + 2)).val, a := 255 }

/-- `ObjectManager::addObject(x, y)`: append a fresh `80×80` object at
`(x, y)` with a freshly generated colour (consuming three stream outputs). -/
def addObject (stream : Nat → Fin 256) (m : ObjectManager) (x y : Int) :
    ObjectManager :=
  { objects := m.objects ++
      [mkDraggableObject x y 80 80 (generateRandomColor stream m.rngPos)],
    rngPos := m.rngPos + 3 }

/-- The reverse scan of `handleMouseDown`'s loop (`rbegin` to `rend`): the
index of the last (topmost) object containing the point, if any. -/
def hitTest (objs : List DraggableObject) (px py : Int) : Option Nat :=
  match objs with
  | [] => none
  | o :: rest =>
    match hitTest rest px py with
    | some i => some (i + 1)
    | none => if containsPoint o px py then some 0 else none

/-- The hit branch of `ObjectManager::handleMouseDown`: mark the object at
index `i` as dragging, record the grab offset, and move it to the back of the
vector (`erase` then `push_back` of the already-marked copy). -/
def beginDrag (m : ObjectManager) (i : Nat) (mouseX mouseY : Int) :
    ObjectManager :=
  match m.objects[i]? with
  | none => m
  | some o =>
    { m with objects := m.objects.eraseIdx i ++
        [{ o with isDragging := true
                  dragOffsetX := mouseX - o.rect.x
                  dragOffsetY := mouseY - o.rect.y }] }

/-- `ObjectManager::handleMouseDown`: on the left button, hit-test top to
bottom; on a hit begin dragging that object, otherwise create a new object at
the mouse position.  Other buttons do nothing. -/
def handleMouseDown (stream : Nat → Fin 256) (m : ObjectManager)
    (button : Nat) (mouseX mouseY : Int) : ObjectManager :=
  if button = SDL_BUTTON_LEFT then
    match hitTest m.objects mouseX mouseY with
    | some i => beginDrag m i mouseX mouseY
    | none => addObject stream m mouseX mouseY
  else m

/-- `ObjectManager::handleMouseUp`: on the left button, clear `isDragging` on
every object; other buttons do nothing. -/
def handleMouseUp (m : ObjectManager) (button : Nat) : ObjectManager :=
  if button = SDL_BUTTON_LEFT then
    { m with objects := m.objects.map (fun o => { o with isDragging := false }) }
  else m

/-- `ObjectManager::handleMouseMotion`: call `drag` on every object (a no-op
on objects that are not dragging). -/
def handleMouseMotion (m : ObjectManager) (mouseX mouseY : Int) :
    ObjectManager :=
  { m with objects := m.objects.map (fun o => drag o mouseX mouseY) }

/-- The `ObjectManager()` constructor: three initial objects at `(100,100)`,
`(300,200)`, `(500,300)`, created through `addObject`. -/
def initialManager (stream : Nat → Fin 256) : ObjectManager :=
  addObject stream
    (addObject stream
      (addObject stream { objects := [], rngPos := 0 } 100 100) 300 200)
    500 300

/-- The mouse events `SDLApp::handleEvents` routes to the registry. -/
inductive Event where
  | press (button : Nat) (x y : Int)
  | release (button : Nat) (x y : Int)
  | motion (x y : Int)
deriving Repr, DecidableEq

/-- One dispatch step of `SDLApp::handleEvents` on the registry. -/
def step (stream : Nat → Fin 256) (m : ObjectManager) : Event → ObjectManager
  | Event.press b x y => handleMouseDown stream m b x y
  | Event.release b _ _ => handleMouseUp m b
  | Event.motion x y => handleMouseMotion m x y

/-- Process a whole event sequence in arrival order. -/
def run (stream : Nat → Fin 256) (m : ObjectManager) : List Event → ObjectManager
  | [] => m
  | e :: es => run stream (step stream m e) es

/-- Number of objects currently marked as dragging. -/
def dragCount (objs : List DraggableObject) : Nat :=
  objs.countP (fun o => o.isDragging)

/-- The spec's "at most one object has `isDragging == true`" invariant. -/
def atMostOneDragging (m : ObjectManager) : Prop :=
  dragCount m.objects ≤ 1

instance (m : ObjectManager) : Decidable (atMostOneDragging m) := by
  unfold atMostOneDragging
  exact inferInstance

/-- The spec's clamp invariant for a single object: the rectangle lies fully
inside the `800×600` canvas. -/
def inBounds (o : DraggableObject) : Prop :=
  0 ≤ o.rect.x ∧ o.rect.x ≤ WINDOW_WIDTH - o.rect.w ∧
  0 ≤ o.rect.y ∧ o.rect.y ≤ WINDOW_HEIGHT - o.rect.h

instance (o : DraggableObject) : Decidable (inBounds o) := by
  unfold inBounds
  exact inferInstance

/-- All objects in the registry have the fixed `80×80` extent. -/
def allSize80 (m : ObjectManager) : Prop :=
  ∀ o ∈ m.objects, o.rect.w = 80 ∧ o.rect.h = 80

/-- A fixed random stream (all channels `0`) used for concrete executions. -/
def strm0 : Nat → Fin 256 := fun _ => 0

/-- Opaque black, used as an arbitrary concrete colour. -/
def black : SDLColor := { r := 0, g := 0, b := 0, a := 255 }

/-- Well-formed button sequences: no two primary-button presses without an
intervening primary-button release (`held` is whether the primary button is
currently down). -/
def alternating : Bool → List Event → Bool
  | _, [] => true
  | held, Event.press b _ _ :: es =>
      if b = SDL_BUTTON_LEFT then !held && alternating true es
      else alternating held es
  | held, Event.release b _ _ :: es =>
      if b = SDL_BUTTON_LEFT then alternating false es
      else alternating held es
  | held, Event.motion _ _ :: es => alternating held es

theorem STDclamp_nonneg (v hi : Int) (h : 0 ≤ hi) : 0 ≤ STDclamp v 0 hi := by
  unfold STDclamp
  split_ifs <;> omega

theorem STDclamp_le (v hi : Int) (h : 0 ≤ hi) : STDclamp v 0 hi ≤ hi := by
  unfold STDclamp
  split_ifs <;> omega

theorem drag_isDragging (o : DraggableObject) (mx my : Int) :
    (drag o mx my).isDragging = o.isDragging := by
  unfold drag
  split <;> rfl

theorem drag_rect_w (o : DraggableObject) (mx my : Int) :
    (drag o mx my).rect.w = o.rect.w := by
  unfold drag
  split <;> rfl

theorem drag_rect_h (o : DraggableObject) (mx my : Int) :
    (drag o mx my).rect.h = o.rect.h := by
  unfold drag
  split <;> rfl

theorem drag_of_not_dragging (o : DraggableObject) (mx my : Int)
    (h : o.isDragging = false) : drag o mx my = o := by
  unfold drag
  simp [h]

theorem drag_inBounds (o : DraggableObject) (mx my : Int)
    (hw : o.rect.w ≤ WINDOW_WIDTH) (hh : o.rect.h ≤ WINDOW_HEIGHT)
    (hd : o.isDragging = true) : inBounds (drag o mx my) := by
  unfold inBounds drag
  rw [hd]
  simp only [if_true]
  exact ⟨STDclamp_nonneg _ _ (by omega), STDclamp_le _ _ (by omega),
    STDclamp_nonneg _ _ (by omega), STDclamp_le _ _ (by omega)⟩

theorem dragCount_clear (objs : List DraggableObject) :
    dragCount (objs.map (fun o => { o with isDragging := false })) = 0 := by
  unfold dragCount
  rw [List.countP_map]
  simp [Function.comp]

theorem dragCount_motion (objs : List DraggableObject) (mx my : Int) :
    dragCount (objs.map (fun o => drag o mx my)) = dragCount objs := by
  unfold dragCount
  rw [List.countP_map]
  congr 1
  funext o
  show (drag o mx my).isDragging = o.isDragging
  exact drag_isDragging o mx my

theorem hitTest_eq_none_iff (objs : List DraggableObject) (px py : Int) :
    hitTest objs px py = none ↔ ∀ o ∈ objs, containsPoint o px py = false := by
  induction objs with
  | nil => simp [hitTest]
  | cons o rest ih =>
    simp only [hitTest]
    cases hr : hitTest rest px py with
    | some i =>
      simp only [List.mem_cons]
      constructor
      · intro h
        cases h
      · intro hall
        have : hitTest rest px py = none :=
          ih.mpr (fun o' ho' => hall o' (Or.inr ho'))
        rw [hr] at this
        cases this
    | none =>
      by_cases hc : containsPoint o px py = true
      · simp [hc]
      · simp only [Bool.not_eq_true] at hc
        simp [hc]
        exact ih.mp hr

theorem hitTest_some_spec (objs : List DraggableObject) (px py : Int) :
    ∀ i, hitTest objs px py = some i →
      ∃ o, objs[i]? = some o ∧ containsPoint o px py = true ∧
        ∀ j o', i < j → objs[j]? = some o' → containsPoint o' px py = false := by
  induction objs with
  | nil =>
    intro i h
    simp [hitTest] at h
  | cons o rest ih =>
    intro i h
    simp only [hitTest] at h
    cases hr : hitTest rest px py with
    | some k =>
      rw [hr] at h
      simp only [Option.some.injEq] at h
      subst h
      obtain ⟨o', ho', hc, hmax⟩ := ih k hr
      refine ⟨o', by simpa using ho', hc, ?_⟩
      intro j o'' hj hget
      cases j with
      | zero => omega
      | succ j' =>
        rw [List.getElem?_cons_succ] at hget
        exact hmax j' o'' (by omega) hget
    | none =>
      rw [hr] at h
      by_cases hc : containsPoint o px py = true
      · rw [if_pos hc] at h
        simp only [Option.some.injEq] at h
        subst h
        refine ⟨o, by simp, hc, ?_⟩
        intro j o'' hj hget
        cases j with
        | zero => omega
        | succ j' =>
          rw [List.getElem?_cons_succ] at hget
          exact (hitTest_eq_none_iff rest px py).mp hr o''
            (List.getElem?_mem hget)
      · rw [if_neg hc] at h
        cases h

theorem hitTest_lt_length (objs : List DraggableObject) (px py : Int) (i : Nat)
    (h : hitTest objs px py = some i) : i < objs.length := by
  obtain ⟨o, ho, -, -⟩ := hitTest_some_spec objs px py i h
  exact (List.getElem?_eq_some.mp ho).1

theorem hitTest_append_single (l : List DraggableObject) (o : DraggableObject)
    (px py : Int) (hc : containsPoint o px py = true) :
    hitTest (l ++ [o]) px py = some l.length := by
  induction l with
  | nil => simp [hitTest, hc]
  | cons a l ih => simp [hitTest, ih]

theorem run_append (stream : Nat → Fin 256) (m : ObjectManager)
    (es es' : List Event) :
    run stream m (es ++ es') = run stream (run stream m es) es' := by
  induction es generalizing m with
  | nil => rfl
  | cons e es ih => simp [run, ih]

theorem allSize80_addObject (stream : Nat → Fin 256) (m : ObjectManager)
    (x y : Int) (h : allSize80 m) : allSize80 (addObject stream m x y) := by
  intro o ho
  unfold addObject at ho
  simp only [List.mem_append, List.mem_singleton] at ho
  rcases ho with ho | rfl
  · exact h o ho
  · exact ⟨rfl, rfl⟩

theorem allSize80_beginDrag (m : ObjectManager) (i : Nat) (mx my : Int)
    (h : allSize80 m) : allSize80 (beginDrag m i mx my) := by
  unfold beginDrag
  cases hi : m.objects[i]? with
  | none => exact h
  | some o =>
    intro o' ho'
    simp only [List.mem_append, List.mem_singleton] at ho'
    rcases ho' with ho' | rfl
    · exact h o' ((List.eraseIdx_sublist m.objects i).subset ho')
    · exact h o (List.getElem?_mem hi)

theorem allSize80_step (stream : Nat → Fin 256) (m : ObjectManager) (e : Event)
    (h : allSize80 m) : allSize80 (step stream m e) := by
  cases e with
  | press b x y =>
    simp only [step]
    unfold handleMouseDown
    by_cases hb : b = SDL_BUTTON_LEFT
    · rw [if_pos hb]
      cases ht : hitTest m.objects x y with
      | some i => exact allSize80_beginDrag m i x y h
      | none => exact allSize80_addObject stream m x y h
    · rw [if_neg hb]
      exact h
  | release b x y =>
    simp only [step]
    unfold handleMouseUp
    by_cases hb : b = SDL_BUTTON_LEFT
    · rw [if_pos hb]
      intro o ho
      simp only [List.mem_map] at ho
      obtain ⟨o₀, h₀, rfl⟩ := ho
      exact h o₀ h₀
    · rw [if_neg hb]
      exact h
  | motion x y =>
    simp only [step]
    unfold handleMouseMotion
    intro o ho
    simp only [List.mem_map] at ho
    obtain ⟨o₀, h₀, rfl⟩ := ho
    rw [drag_rect_w, drag_rect_h]
    exact h o₀ h₀

theorem allSize80_run (stream : Nat → Fin 256) (es : List Event)
    (m : ObjectManager) (h : allSize80 m) : allSize80 (run stream m es) := by
  induction es generalizing m with
  | nil => exact h
  | cons e es ih => exact ih (step stream m e) (allSize80_step stream m e h)

theorem allSize80_initial (stream : Nat → Fin 256) :
    allSize80 (initialManager stream) := by
  unfold initialManager
  apply allSize80_addObject
  apply allSize80_addObject
  apply allSize80_addObject
  intro o ho
  cases ho

theorem allSize80_reachable (stream : Nat → Fin 256) (es : List Event) :
    allSize80 (run stream (initialManager stream) es) :=
  allSize80_run stream es (initialManager stream) (allSize80_initial stream)

theorem motion_dragging_inBounds (m : ObjectManager) (mx my : Int)
    (hs : allSize80 m) :
    ∀ o ∈ (handleMouseMotion m mx my).objects, o.isDragging = true →
      inBounds o := by
  intro o ho hd
  unfold handleMouseMotion at ho
  simp only [List.mem_map] at ho
  obtain ⟨o₀, h₀, rfl⟩ := ho
  have hsz := hs o₀ h₀
  by_cases hdrag : o₀.isDragging = true
  · exact drag_inBounds o₀ mx my
      (by rw [hsz.1]; unfold WINDOW_WIDTH; omega)
      (by rw [hsz.2]; unfold WINDOW_HEIGHT; omega) hdrag
  · simp only [Bool.not_eq_true] at hdrag
    rw [drag_of_not_dragging o₀ mx my hdrag] at hd
    rw [hdrag] at hd
    cases hd

theorem motion_frame (m : ObjectManager) (mx my : Int) (i : Nat)
    (o : DraggableObject) (hi : m.objects[i]? = some o)
    (hd : o.isDragging = false) :
    (handleMouseMotion m mx my).objects[i]? = some o := by
  unfold handleMouseMotion
  simp only [List.getElem?_map, hi, Option.map_some']
  rw [drag_of_not_dragging o mx my hd]

theorem dragCount_beginDrag_le (m : ObjectManager) (i : Nat) (mx my : Int) :
    dragCount (beginDrag m i mx my).objects ≤ dragCount m.objects + 1 := by
  unfold beginDrag
  cases hi : m.objects[i]? with
  | none =>
    show dragCount m.objects ≤ dragCount m.objects + 1
    omega
  | some o =>
    show dragCount (m.objects.eraseIdx i ++ [_]) ≤ _
    unfold dragCount
    rw [List.countP_append]
    have h1 := (List.eraseIdx_sublist m.objects i).countP_le
      (fun o => o.isDragging)
    have h2 : List.countP (fun o => o.isDragging)
        [{ o with isDragging := true
                  dragOffsetX := mx - o.rect.x
                  dragOffsetY := my - o.rect.y }] ≤ 1 := by
      simp [List.countP_cons]
    omega

theorem dragCount_addObject (stream : Nat → Fin 256) (m : ObjectManager)
    (x y : Int) :
    dragCount (addObject stream m x y).objects = dragCount m.objects := by
  unfold addObject dragCount
  rw [List.countP_append]
  simp [List.countP_cons, mkDraggableObject]

theorem alternating_dragCount (stream : Nat → Fin 256) :
    ∀ (es : List Event) (held : Bool) (m : ObjectManager),
      alternating held es = true →
      dragCount m.objects ≤ (if held then 1 else 0) →
      dragCount (run stream m es).objects ≤ 1 := by
  intro es
  induction es with
  | nil =>
    intro held m _ hc
    cases held <;> simp_all [run]
  | cons e es ih =>
    intro held m halt hc
    cases e with
    | press b x y =>
      simp only [alternating] at halt
      by_cases hb : b = SDL_BUTTON_LEFT
      · rw [if_pos hb] at halt
        simp only [Bool.and_eq_true, Bool.not_eq_true'] at halt
        obtain ⟨hheld, halt'⟩ := halt
        subst hheld
        simp only [Bool.false_eq_true, if_false, Nat.le_zero] at hc
        show dragCount
          (run stream (handleMouseDown stream m b x y) es).objects ≤ 1
        apply ih true _ halt'
        rw [if_pos rfl]
        unfold handleMouseDown
        rw [if_pos hb]
        cases ht : hitTest m.objects x y with
        | some i =>
          show dragCount (beginDrag m i x y).objects ≤ 1
          have := dragCount_beginDrag_le m i x y
          omega
        | none =>
          rw [dragCount_addObject]
          omega
      · rw [if_neg hb] at halt
        show dragCount
          (run stream (handleMouseDown stream m b x y) es).objects ≤ 1
        unfold handleMouseDown
        rw [if_neg hb]
        exact ih held m halt hc
    | release b x y =>
      simp only [alternating] at halt
      by_cases hb : b = SDL_BUTTON_LEFT
      · rw [if_pos hb] at halt
        show dragCount (run stream (handleMouseUp m b) es).objects ≤ 1
        apply ih false _ halt
        rw [if_neg (by simp)]
        unfold handleMouseUp
        rw [if_pos hb]
        show dragCount (m.objects.map _) ≤ 0
        rw [dragCount_clear]
      · rw [if_neg hb] at halt
        show dragCount (run stream (handleMouseUp m b) es).objects ≤ 1
        unfold handleMouseUp
        rw [if_neg hb]
        exact ih held m halt hc
    | motion x y =>
      simp only [alternating] at halt
      show dragCount (run stream (handleMouseMotion m x y) es).objects ≤ 1
      apply ih held _ halt
      show dragCount (m.objects.map _) ≤ _
      rw [dragCount_motion]
      exact hc

theorem dragCount_initial (stream : Nat → Fin 256) :
    dragCount (initialManager stream).objects = 0 := by
  unfold initialManager
  rw [dragCount_addObject, dragCount_addObject, dragCount_addObject]
  rfl

/-- C1, counterexample: the claim that immediately after any `updateDrag`
every object's position satisfies the clamp bounds is false on the code: a
left press at `(750, 50)` hits nothing and appends an unclamped object at
`(750, 50)` (so `x + w = 830 > 800`), and a subsequent motion event leaves
that non-dragging object out of bounds. -/
theorem C1_counterexample :
    ¬ ∀ o ∈ (handleMouseMotion
        (run strm0 (initialManager strm0) [Event.press 1 750 50]) 0 0).objects,
      inBounds o := by decide

/-- C1 (amended): immediately after any `updateDrag` (`handleMouseMotion`) on
a reachable registry state, every object with `isDragging = true` satisfies
`0 ≤ x ≤ 800 - w` and `0 ≤ y ≤ 600 - h`, and every object with
`isDragging = false` is left exactly unchanged at its index. -/
theorem C1_updateDrag_clamps (stream : Nat → Fin 256) (es : List Event)
    (mx my : Int) :
    (∀ o ∈ (handleMouseMotion
        (run stream (initialManager stream) es) mx my).objects,
      o.isDragging = true → inBounds o) ∧
    (∀ (i : Nat) (o : DraggableObject),
      (run stream (initialManager stream) es).objects[i]? = some o →
      o.isDragging = false →
      (handleMouseMotion
        (run stream (initialManager stream) es) mx my).objects[i]? = some o) :=
  ⟨motion_dragging_inBounds _ mx my (allSize80_reachable stream es),
   fun i o hi hd => motion_frame _ mx my i o hi hd⟩

/-- C1, witness: the amended theorem applied to the initial state and the
motion event `(5, 5)`. -/
theorem C1_witness :
    ∀ o ∈ (handleMouseMotion
        (run strm0 (initialManager strm0) []) 5 5).objects,
      o.isDragging = true → inBounds o :=
  (C1_updateDrag_clamps strm0 [] 5 5).1

/-- C2, counterexample: the claim that at most one object is dragging after
every press/release sequence is false on the code: two left presses without
an intervening release (hitting two disjoint objects) leave two objects with
`isDragging = true`, because `handleMouseDown` never clears other flags. -/
theorem C2_counterexample :
    ¬ atMostOneDragging (run strm0 (initialManager strm0)
        [Event.press 1 150 150, Event.press 1 350 250]) := by decide

/-- C2 (amended): for every event sequence in which no two primary-button
presses occur without an intervening primary-button release (starting from
the all-released initial state), at most one object has `isDragging = true`. -/
theorem C2_atMostOne_alternating (stream : Nat → Fin 256) (es : List Event)
    (h : alternating false es = true) :
    atMostOneDragging (run stream (initialManager stream) es) := by
  show dragCount (run stream (initialManager stream) es).objects ≤ 1
  exact alternating_dragCount stream es false (initialManager stream) h
    (by simp [dragCount_initial])

/-- C2, witness: a press followed by a release is alternating, and the
amended theorem applies to it. -/
theorem C2_witness :
    alternating false [Event.press 1 150 150, Event.release 1 150 150] = true ∧
    atMostOneDragging (run strm0 (initialManager strm0)
      [Event.press 1 150 150, Event.release 1 150 150]) :=
  ⟨by decide, C2_atMostOne_alternating strm0
    [Event.press 1 150 150, Event.release 1 150 150] (by decide)⟩

/-- C3, counterexample: the claim that every dragging object is fully inside
the canvas, including immediately after `beginDrag`, is false on the code: an
object created at `(750, 50)` sticks out of the canvas, and pressing on it
sets `isDragging = true` without clamping its bounds. -/
theorem C3_counterexample :
    ∃ o ∈ (run strm0 (initialManager strm0)
        [Event.press 1 750 50, Event.release 1 0 0,
         Event.press 1 760 60]).objects,
      o.isDragging = true ∧ ¬ inBounds o := by decide

/-- C3 (amended): in every reachable registry state whose last event is a
motion event (`updateDrag`), every object with `isDragging = true` has its
bounds fully inside the canvas; between `beginDrag` and the first motion
event the dragged object keeps its press-time bounds, which may lie outside
the canvas for objects that were created out of bounds. -/
theorem C3_dragging_inBounds_after_motion (stream : Nat → Fin 256)
    (es : List Event) (mx my : Int) :
    ∀ o ∈ (run stream (initialManager stream)
        (es ++ [Event.motion mx my])).objects,
      o.isDragging = true → inBounds o := by
  rw [run_append]
  exact motion_dragging_inBounds (run stream (initialManager stream) es) mx my
    (allSize80_reachable stream es)

/-- C3, witness: after grabbing the first object at `(150, 150)` and moving
to `(400, 400)`, the dragged object sits at `(350, 350)`, fully inside the
canvas. -/
theorem C3_witness :
    inBounds { rect := { x := 350, y := 350, w := 80, h := 80 }
               color := { r := 0, g := 0, b := 0, a := 255 }
               isDragging := true
               dragOffsetX := 50
               dragOffsetY := 50 } :=
  C3_dragging_inBounds_after_motion strm0 [Event.press 1 150 150] 400 400
    { rect := { x := 350, y := 350, w := 80, h := 80 }
      color := { r := 0, g := 0, b := 0, a := 255 }
      isDragging := true
      dragOffsetX := 50
      dragOffsetY := 50 } (by decide) (by decide)

/-- C4: `hitTest` returns `none` exactly when no object contains the point
under the half-open containment test, and when it returns an index `i`, the
object at `i` contains the point and every object later in the sequence
(added or raised more recently, i.e. painted above it) does not — so the scan
runs from the most-recently-added object backward; in particular with `A` at
`(0,0,80,80)` added before `B` at `(40,40,80,80)`, `hitTest (60,60)` returns
`B`'s index `1`. -/
theorem C4_hitTest_topmost (objs : List DraggableObject) (px py : Int)
    (c1 c2 : SDLColor) :
    (hitTest objs px py = none ↔
      ∀ o ∈ objs, containsPoint o px py = false) ∧
    (∀ i, hitTest objs px py = some i →
      ∃ o, objs[i]? = some o ∧ containsPoint o px py = true ∧
        ∀ j o', i < j → objs[j]? = some o' →
          containsPoint o' px py = false) ∧
    hitTest [mkDraggableObject 0 0 80 80 c1,
      mkDraggableObject 40 40 80 80 c2] 60 60 = some 1 :=
  ⟨hitTest_eq_none_iff objs px py, hitTest_some_spec objs px py, rfl⟩

/-- C4, witness: the overlapping-objects example evaluated concretely. -/
theorem C4_witness :
    hitTest [mkDraggableObject 0 0 80 80 black,
      mkDraggableObject 40 40 80 80 black] 60 60 = some 1 :=
  (C4_hitTest_topmost [] 0 0 black black).2.2


theorem length_beginDrag (m : ObjectManager) (i : Nat) (mx my : Int) :
    (beginDrag m i mx my).objects.length = m.objects.length := by
  unfold beginDrag
  cases hi : m.objects[i]? with
  | none => rfl
  | some o =>
    show (m.objects.eraseIdx i ++ [_]).length = _
    rw [List.length_append, List.length_eraseIdx]
    have hlt : i < m.objects.length := (List.getElem?_eq_some.mp hi).1
    rw [if_pos hlt]
    simp only [List.length_singleton]
    omega

/-- C5: `beginDrag(i, mouseX, mouseY)` on a valid index produces exactly the
registry with the object at `i` removed from its place and re-appended last —
marked dragging, with `dragOffset = (mouseX - x, mouseY - y)`, bounds and
colour untouched and every other object left in relative order — without
touching the random state; the moved object sits at the last index, and when
the grab point lies inside the object (as it does for every hit), a
subsequent `hitTest` at the same point returns that last index, so the object
is found again without further reordering. -/
theorem C5_beginDrag_spec (m : ObjectManager) (i : Nat) (mx my : Int)
    (o : DraggableObject) (hi : m.objects[i]? = some o) :
    (beginDrag m i mx my).objects =
      m.objects.eraseIdx i ++
        [{ o with isDragging := true
                  dragOffsetX := mx - o.rect.x
                  dragOffsetY := my - o.rect.y }] ∧
    (beginDrag m i mx my).rngPos = m.rngPos ∧
    (beginDrag m i mx my).objects[m.objects.length - 1]? =
      some { o with isDragging := true
                    dragOffsetX := mx - o.rect.x
                    dragOffsetY := my - o.rect.y } ∧
    (containsPoint o mx my = true →
      hitTest (beginDrag m i mx my).objects mx my =
        some (m.objects.length - 1)) := by
  have hlt : i < m.objects.length := (List.getElem?_eq_some.mp hi).1
  have hobjs : (beginDrag m i mx my).objects =
      m.objects.eraseIdx i ++
        [{ o with isDragging := true
                  dragOffsetX := mx - o.rect.x
                  dragOffsetY := my - o.rect.y }] := by
    unfold beginDrag
    rw [hi]
  have hlen : (m.objects.eraseIdx i).length = m.objects.length - 1 := by
    rw [List.length_eraseIdx, if_pos hlt]
  refine ⟨hobjs, ?_, ?_, ?_⟩
  · unfold beginDrag
    rw [hi]
  · rw [hobjs, ← hlen]
    exact List.getElem?_concat_length _ _
  · intro hc
    rw [hobjs, ← hlen]
    exact hitTest_append_single _ _ _ _ hc

/-- C5, witness: dragging the bottommost initial object from `(150, 150)`
makes a `hitTest` at the same point return the last index. -/
theorem C5_witness :
    hitTest (beginDrag (initialManager strm0) 0 150 150).objects 150 150 =
      some ((initialManager strm0).objects.length - 1) :=
  (C5_beginDrag_spec (initialManager strm0) 0 150 150
    (mkDraggableObject 100 100 80 80 (generateRandomColor strm0 0))
    (by decide)).2.2.2 (by decide)

/-- C6: a primary-button press at a point no object contains appends exactly
one new `80×80` object with top-left exactly at the press point (no
clamping), with the freshly generated colour (three new random-stream
outputs), leaving every existing object unchanged; the generated colour is
always fully opaque.  The operation is total. -/
theorem C6_press_miss_appends (stream : Nat → Fin 256) (m : ObjectManager)
    (px py : Int) (hmiss : ∀ o ∈ m.objects, containsPoint o px py = false) :
    handleMouseDown stream m SDL_BUTTON_LEFT px py =
      { objects := m.objects ++
          [mkDraggableObject px py 80 80
            (generateRandomColor stream m.rngPos)],
        rngPos := m.rngPos + 3 } ∧
    (generateRandomColor stream m.rngPos).a = 255 := by
  constructor
  · unfold handleMouseDown
    rw [if_pos rfl, (hitTest_eq_none_iff m.objects px py).mpr hmiss]
    rfl
  · rfl

/-- C6, witness: a press at `(700, 500)` misses all three initial objects and
appends exactly the unclamped object at `(700, 500)`. -/
theorem C6_witness :
    handleMouseDown strm0 (initialManager strm0) SDL_BUTTON_LEFT 700 500 =
      { objects := (initialManager strm0).objects ++
          [mkDraggableObject 700 500 80 80
            (generateRandomColor strm0 (initialManager strm0).rngPos)],
        rngPos := (initialManager strm0).rngPos + 3 } :=
  (C6_press_miss_appends strm0 (initialManager strm0) 700 500 (by decide)).1

/-- C7: `endDrag` (a primary-button release) is idempotent — a second release
right after a first one leaves the registry state identical — and
`updateDrag` (a motion event) when no object is dragging changes nothing at
all: objects, flags, offsets, order and random state are all unchanged. -/
theorem C7_endDrag_idem_updateDrag_noop (m : ObjectManager) (mx my : Int) :
    handleMouseUp (handleMouseUp m SDL_BUTTON_LEFT) SDL_BUTTON_LEFT =
      handleMouseUp m SDL_BUTTON_LEFT ∧
    (dragCount m.objects = 0 → handleMouseMotion m mx my = m) := by
  constructor
  · unfold handleMouseUp
    rw [if_pos rfl, if_pos rfl]
    simp only [List.map_map]
    rfl
  · intro h0
    have hall : ∀ o ∈ m.objects, o.isDragging = false := by
      intro o ho
      have := List.countP_eq_zero.mp h0 o ho
      simpa using this
    unfold handleMouseMotion
    have hmap : m.objects.map (fun o => drag o mx my) = m.objects := by
      rw [List.map_congr_left
        (fun o ho => drag_of_not_dragging o mx my (hall o ho))]
      exact List.map_id _
    rw [hmap]

/-- C7, witness: the initial state has nothing dragging, and both parts hold
on it concretely. -/
theorem C7_witness :
    handleMouseUp (handleMouseUp (initialManager strm0) SDL_BUTTON_LEFT)
        SDL_BUTTON_LEFT =
      handleMouseUp (initialManager strm0) SDL_BUTTON_LEFT ∧
    handleMouseMotion (initialManager strm0) 9 9 = initialManager strm0 :=
  ⟨(C7_endDrag_idem_updateDrag_noop (initialManager strm0) 9 9).1,
   (C7_endDrag_idem_updateDrag_noop (initialManager strm0) 9 9).2 (by decide)⟩

/-- C8: the registry starts with exactly three objects, a primary press that
hits no object grows it by exactly one, and no event (press, release or
motion) ever decreases the number of objects. -/
theorem C8_objectCount (stream : Nat → Fin 256) (m : ObjectManager)
    (e : Event) (px py : Int)
    (hmiss : ∀ o ∈ m.objects, containsPoint o px py = false) :
    (initialManager stream).objects.length = 3 ∧
    (handleMouseDown stream m SDL_BUTTON_LEFT px py).objects.length =
      m.objects.length + 1 ∧
    m.objects.length ≤ (step stream m e).objects.length := by
  refine ⟨rfl, ?_, ?_⟩
  · unfold handleMouseDown
    rw [if_pos rfl, (hitTest_eq_none_iff m.objects px py).mpr hmiss]
    show (addObject stream m px py).objects.length = _
    unfold addObject
    rw [List.length_append]
    rfl
  · cases e with
    | press b x y =>
      simp only [step]
      unfold handleMouseDown
      by_cases hb : b = SDL_BUTTON_LEFT
      · rw [if_pos hb]
        cases ht : hitTest m.objects x y with
        | some i =>
          show m.objects.length ≤ (beginDrag m i x y).objects.length
          rw [length_beginDrag]
        | none =>
          show m.objects.length ≤ (addObject stream m x y).objects.length
          unfold addObject
          rw [List.length_append]
          omega
      · rw [if_neg hb]
    | release b x y =>
      simp only [step]
      unfold handleMouseUp
      by_cases hb : b = SDL_BUTTON_LEFT
      · rw [if_pos hb]
        show m.objects.length ≤ (m.objects.map _).length
        rw [List.length_map]
      · rw [if_neg hb]
    | motion x y =>
      simp only [step]
      unfold handleMouseMotion
      show m.objects.length ≤ (m.objects.map _).length
      rw [List.length_map]

/-- C8, witness: a missing press at `(700, 500)` on the initial state grows
the registry from three to four objects. -/
theorem C8_witness :
    (handleMouseDown strm0 (initialManager strm0)
      SDL_BUTTON_LEFT 700 500).objects.length =
      (initialManager strm0).objects.length + 1 :=
  (C8_objectCount strm0 (initialManager strm0) (Event.motion 0 0) 700 500
    (by decide)).2.1

/-- C9: a press or release whose button is not the primary button leaves the
registry state completely unchanged — `handleMouseDown` and `handleMouseUp`
both return the state as-is (same objects, flags, offsets, order and random
state). -/
theorem C9_other_button_noop (stream : Nat → Fin 256) (m : ObjectManager)
    (b : Nat) (px py : Int) (hb : b ≠ SDL_BUTTON_LEFT) :
    handleMouseDown stream m b px py = m ∧ handleMouseUp m b = m := by
  constructor
  · unfold handleMouseDown
    rw [if_neg hb]
  · unfold handleMouseUp
    rw [if_neg hb]

/-- C9, witness: a middle-button (button 2) press and release at `(10, 10)`
leave the initial state unchanged. -/
theorem C9_witness :
    handleMouseDown strm0 (initialManager strm0) 2 10 10 =
        initialManager strm0 ∧
    handleMouseUp (initialManager strm0) 2 = initialManager strm0 :=
  C9_other_button_noop strm0 (initialManager strm0) 2 10 10 (by decide)

/-- C10: in every reachable registry state (any event sequence from the
initial state) every object has width `80` and height `80`, so the clamp
bounds used by `updateDrag` are always well-formed:
`0 ≤ canvasWidth - w` and `0 ≤ canvasHeight - h`. -/
theorem C10_fixed_size (stream : Nat → Fin 256) (es : List Event) :
    ∀ o ∈ (run stream (initialManager stream) es).objects,
      o.rect.w = 80 ∧ o.rect.h = 80 ∧
      (0:Int) ≤ WINDOW_WIDTH - o.rect.w ∧
      (0:Int) ≤ WINDOW_HEIGHT - o.rect.h := by
  intro o ho
  have h := allSize80_reachable stream es o ho
  refine ⟨h.1, h.2, ?_, ?_⟩
  · rw [h.1]
    unfold WINDOW_WIDTH
    omega
  · rw [h.2]
    unfold WINDOW_HEIGHT
    omega

/-- C10, witness: the size invariant evaluated at the object added by a press
at `(700, 500)`, after a further motion event. -/
theorem C10_witness :
    (mkDraggableObject 700 500 80 80 black).rect.w = 80 ∧
    (mkDraggableObject 700 500 80 80 black).rect.h = 80 ∧
    (0:Int) ≤ WINDOW_WIDTH - (mkDraggableObject 700 500 80 80 black).rect.w ∧
    (0:Int) ≤ WINDOW_HEIGHT - (mkDraggableObject 700 500 80 80 black).rect.h :=
  C10_fixed_size strm0 [Event.press 1 700 500, Event.motion 2 2]
    (mkDraggableObject 700 500 80 80 black) (by decide)

end MultiDrag
